import Mathlib

/-!
# ptout: a shallow embedding of `main.c`

`ptout` runs a program with its standard streams attached to a pseudo-terminal
and copies what the program prints to the real standard output.

The C program talks to the operating system only through system calls, so the
embedding is a replay semantics: every function of `main.c` becomes a Lean
function that takes the results the operating system gives to its calls and
yields the list of calls the process issues (its trace) and the way the
function ends (its outcome).  Results of calls issued once are fields of
`Env`; results of calls issued in a loop (`read`, `write`, `epoll_wait`) are
lists consumed front to back, and a call whose list is exhausted never
returns (`Outcome.blocked`).
-/

namespace Ptout

/-! ## Constants -/

/-- Value of `EXIT_FAILURE` in `<stdlib.h>`. -/
def EXIT_FAILURE : Int := 1

/-- Value of `EINTR` in `<errno.h>`. -/
def EINTR : Nat := 4

/-- Value of `EPOLLIN` in `<sys/epoll.h>`. -/
def EPOLLIN : Nat := 1

/-- Value of `STDIN_FILENO`. -/
def STDIN_FILENO : Int := 0

/-- Value of `STDOUT_FILENO`. -/
def STDOUT_FILENO : Int := 1

/-- Value of `STDERR_FILENO`. -/
def STDERR_FILENO : Int := 2

/-- Largest value of a C `int`. -/
def INT_MAX : Int := 2147483647

/-- Size of the static array `buf` of `print_buf`, `sizeof(buf)`. -/
def BUF_SIZE : Nat := 4096

/-- Number of entries of the array `events` of `do_poll`. -/
def NEVENTS : Nat := 10

/-! ## System calls and their results -/

/-- One `struct epoll_event` as `epoll_wait` stores it: the event mask and the
`data.fd` member. -/
structure EpollEvent where
  events : Nat
  fd : Int
  deriving DecidableEq, Repr

/-- A call the process issues.  Pointers to strings are `Option String`
(`none` is `NULL`).  A `write` carries the bytes `buf[0..c)` it is given and
the value it returns (`none` when it never returns). -/
inductive Call where
  | printf_usage (argv0 : Option String)
  | perror (s : String)
  | exit (status : Int)
  | tcflush (fd : Int)
  | tcgetattr (fd : Int)
  | cfmakeraw
  | tcsetattr (fd : Int)
  | read (fd : Int) (count : Nat)
  | write (fd : Int) (bytes : List Nat) (ret : Option Int)
  | epoll_create1 (flags : Int)
  | epoll_ctl_add (efd : Int) (fd : Int) (ev : EpollEvent)
  | epoll_wait (efd : Int) (maxevents : Nat)
  | execvp (file : Option String) (argv : List (Option String))
  | posix_openpt
  | grantpt (fd : Int)
  | unlockpt (fd : Int)
  | ptsname (fd : Int)
  | open_rdwr (path : Option String)
  | fork
  | close (fd : Int)
  | dup2 (oldfd : Int) (newfd : Int)
  | waitpid (pid : Int) (wstatus : Option Int)
  deriving DecidableEq, Repr

/-- Result of one `read`: the bytes the descriptor has to offer (none at all at
end of stream), or `-1` with the given `errno`. -/
inductive ReadRes where
  | data (bytes : List Nat)
  | error (errno : Nat)
  deriving DecidableEq, Repr

/-- Result of one `epoll_wait`: the events stored in `events[0..nfds)`, or
`-1`. -/
inductive EpollRes where
  | ready (evs : List EpollEvent)
  | error (errno : Nat)
  deriving DecidableEq, Repr

/-- Result of `execvp`: the process image is replaced and the call does not
return, or the call fails and returns `-1`. -/
inductive ExecRes where
  | replaced
  | failed (errno : Nat)
  deriving DecidableEq, Repr

/-- Value `execvp` returns, when it returns. -/
def ExecRes.ret : ExecRes → Option Int
  | .replaced => none
  | .failed _ => some (-1)

/-- How a function ends: it returns a value, the process exits with a status,
the process image is replaced by `execvp`, a system call never returns, or the
behaviour is undefined in C (signed overflow, access outside an array). -/
inductive Outcome (α : Type) where
  | ret (a : α)
  | exited (status : Int)
  | execed
  | blocked
  | undefined
  deriving DecidableEq, Repr

/-- A run of a function: the calls issued, the outcome, and what is left of the
state the relay uses, namely the static buffer of `print_buf` and the results
of the `read`s and `write`s not yet issued. -/
structure Run (α : Type) where
  trace : List Call
  out : Outcome α
  buf : List Nat
  reads : List ReadRes
  writes : List Int
  deriving Repr

/-- Calls issued before the run `r`. -/
def step {α : Type} (cs : List Call) (r : Run α) : Run α :=
  { r with trace := cs ++ r.trace }

/-- Sequencing: `k` runs after `r` when `r` returns; otherwise `r` ended the
process (or never ends) and `k` does not run. -/
def Run.andThen {α β : Type} (r : Run α)
    (k : α → List Nat → List ReadRes → List Int → Run β) : Run β :=
  match r.out with
  | .ret a => step r.trace (k a r.buf r.reads r.writes)
  | .exited s => ⟨r.trace, .exited s, r.buf, r.reads, r.writes⟩
  | .execed => ⟨r.trace, .execed, r.buf, r.reads, r.writes⟩
  | .blocked => ⟨r.trace, .blocked, r.buf, r.reads, r.writes⟩
  | .undefined => ⟨r.trace, .undefined, r.buf, r.reads, r.writes⟩

/-- The macro `die(s)`: `perror(s); exit(EXIT_FAILURE);`. -/
def die {α : Type} (s : String) (buf : List Nat) (rs : List ReadRes) (ws : List Int) :
    Run α :=
  ⟨[.perror s, .exit EXIT_FAILURE], .exited EXIT_FAILURE, buf, rs, ws⟩

/-! ## `print_buf` -/

/-- The call `read(fd, buf, count)`: the value returned and the buffer afterwards.
At most `count` bytes are stored, at the start of the buffer. -/
def sys_read (buf : List Nat) (count : Nat) : ReadRes → Int × List Nat
  | .data d => ((min d.length count : Nat), d.take count ++ buf.drop (min d.length count))
  | .error _ => (-1, buf)

/-- The errno a `read` leaves. -/
def ReadRes.errno : ReadRes → Nat
  | .data _ => 0
  | .error e => e

/-- The function `print_buf` (main.c:40-57). -/
def print_buf (sfd : Int) : List Nat → List ReadRes → List Int → Run Unit
  | buf, [], ws => ⟨[.read sfd BUF_SIZE], .blocked, buf, [], ws⟩
  | buf, r :: rs, ws =>
    let c := (sys_read buf BUF_SIZE r).1
    let buf1 := (sys_read buf BUF_SIZE r).2
    if c = -1 then
      if r.errno ≠ EINTR then
        step [.read sfd BUF_SIZE] (die "read()" buf1 rs ws)
      else
        step [.read sfd BUF_SIZE] (print_buf sfd buf1 rs ws)
    else if c = 0 then
      ⟨[.read sfd BUF_SIZE], .ret (), buf1, rs, ws⟩
    else
      match ws with
      | [] =>
        ⟨[.read sfd BUF_SIZE, .write STDOUT_FILENO (buf1.take c.toNat) none],
          .blocked, buf1, rs, []⟩
      | w :: ws1 =>
        step [.read sfd BUF_SIZE, .write STDOUT_FILENO (buf1.take c.toNat) (some w)]
          (print_buf sfd (buf1.set 0 0) rs ws1)

/-! ## `do_poll` -/

/-- The inner `for` loop of `do_poll` (main.c:81-85) over the events
`events[0..nfds)` that `epoll_wait` stored. -/
def do_poll_events (sfd : Int) :
    List EpollEvent → List Nat → List ReadRes → List Int → Run Unit
  | [], buf, rs, ws => ⟨[], .ret (), buf, rs, ws⟩
  | e :: es, buf, rs, ws =>
    if Nat.land e.events EPOLLIN ≠ 0 ∧ e.fd = sfd then
      (print_buf sfd buf rs ws).andThen (fun _ b r w => do_poll_events sfd es b r w)
    else
      do_poll_events sfd es buf rs ws

/-- The outer `for (;;)` loop of `do_poll` (main.c:74-86). -/
def do_poll_loop (efd sfd : Int) :
    List EpollRes → List Nat → List ReadRes → List Int → Run Unit
  | [], buf, rs, ws => ⟨[.epoll_wait efd NEVENTS], .blocked, buf, rs, ws⟩
  | .error _ :: _, buf, rs, ws =>
    step [.epoll_wait efd NEVENTS] (die "epoll_wait()" buf rs ws)
  | .ready evs :: ps, buf, rs, ws =>
    step [.epoll_wait efd NEVENTS]
      ((do_poll_events sfd evs buf rs ws).andThen
        (fun _ b r w => do_poll_loop efd sfd ps b r w))

/-- The function `do_poll` (main.c:59-87).  `efd` is what `epoll_create1`
returns, `ctl` what `epoll_ctl` returns, `polls` the results of the successive
`epoll_wait`s. -/
def do_poll (sfd : Int) (efd ctl : Int) (polls : List EpollRes)
    (buf : List Nat) (rs : List ReadRes) (ws : List Int) : Run Unit :=
  step [.epoll_create1 0] <|
  if efd = -1 then die "epoll_create1()" buf rs ws else
  step [.epoll_ctl_add efd sfd ⟨EPOLLIN, sfd⟩] <|
  if ctl = -1 then die "epoll_ctl()" buf rs ws else
  do_poll_loop efd sfd polls buf rs ws

/-! ## `do_exec` -/

/-- The array `args` after main.c:92-98, with the indices of `argv` read and
the indices of `args` written on the way. -/
structure ArgsBuild where
  args : List (Option String)
  argv_read : List Nat
  args_written : List Nat
  deriving DecidableEq, Repr

/-- A load `argv[i]` on the way to `b`: the pointer read, with `i` added to the
indices read; `none` when `i` lies outside `argv`. -/
def ArgsBuild.load (b : ArgsBuild) (argv : List (Option String)) (i : Nat) :
    Option (Option String × ArgsBuild) :=
  if i < argv.length then
    some (argv.getD i none, { b with argv_read := b.argv_read ++ [i] })
  else none

/-- A store `args[i] = v`: the array afterwards, with `i` added to the indices
written; `none` when `i` lies outside `args`. -/
def ArgsBuild.store (b : ArgsBuild) (i : Nat) (v : Option String) : Option ArgsBuild :=
  if i < b.args.length then
    some { b with args := b.args.set i v, args_written := b.args_written ++ [i] }
  else none

/-- The call `memcpy(&args[di], &argv[si], n * sizeof(char *))`, one pointer
after the other: element `k` is loaded from `argv[si + k]` and stored to
`args[di + k]`.  `none` when a load or a store lies outside its array. -/
def memcpy_ptrs (b : ArgsBuild) (di : Nat) (argv : List (Option String)) (si : Nat) :
    Nat → Option ArgsBuild
  | 0 => some b
  | n + 1 =>
    match memcpy_ptrs b di argv si n with
    | none => none
    | some c =>
      match c.load argv (si + n) with
      | none => none
      | some (v, c1) => c1.store (di + n) v

/-- Lines 92-98 of `do_exec`: `nargs`, the zero-filled array `args`, the load
of `argv[1]` stored to `args[1]` and then to `args[0]`, and the `memcpy` when
`argc > 2`.  `none` is undefined behaviour: `argc + 1` does not fit an `int`,
the size of the array is negative, or an access is out of bounds. -/
def do_exec_args (argc : Int) (argv : List (Option String)) : Option ArgsBuild :=
  let nargs := argc + 1
  if nargs > INT_MAX ∨ nargs < 0 then none else
  let b0 : ArgsBuild := ⟨List.replicate nargs.toNat none, [], []⟩
  match b0.load argv 1 with
  | none => none
  | some (a1, b1) =>
    match b1.store 1 a1 with
    | none => none
    | some b2 =>
      match b2.store 0 a1 with
      | none => none
      | some b3 =>
        if argc > 2 then memcpy_ptrs b3 2 argv 2 (nargs - 2).toNat
        else some b3

/-- The vector `execvp` reads from `&args[1]`: the pointers from index 1 up to
and including the first `NULL`; `none` when there is no `NULL` in the array
after index 0, so that `execvp` would read past its end. -/
def exec_vector (args : List (Option String)) : Option (List (Option String)) :=
  let v := args.drop 1
  if none ∈ v then some (v.takeWhile (fun a => a.isSome) ++ [none]) else none

/-- The function `do_exec` (main.c:89-103). -/
def do_exec (argc : Int) (argv : List (Option String)) (ex : ExecRes)
    (buf : List Nat) (rs : List ReadRes) (ws : List Int) : Run Int :=
  match do_exec_args argc argv with
  | none => ⟨[], .undefined, buf, rs, ws⟩
  | some b =>
    match exec_vector b.args with
    | none => ⟨[], .undefined, buf, rs, ws⟩
    | some v =>
      step [.execvp (b.args.getD 0 none) v] <|
      match ex.ret with
      | none => ⟨[], .execed, buf, rs, ws⟩
      | some r =>
        if r = -1 then die "execvp()" buf rs ws
        else ⟨[], .ret 0, buf, rs, ws⟩

/-! ## `usage`, `flush_pts`, `set_raw_mode` -/

/-- The function `usage` (main.c:16-21). -/
def usage (argv : List (Option String)) (buf : List Nat) (rs : List ReadRes)
    (ws : List Int) : Run Unit :=
  ⟨[.printf_usage (argv.getD 0 none), .exit EXIT_FAILURE], .exited EXIT_FAILURE, buf, rs, ws⟩

/-- The function `flush_pts` (main.c:23-27); `r` is what `tcflush` returns. -/
def flush_pts (fd : Int) (r : Int) (buf : List Nat) (rs : List ReadRes)
    (ws : List Int) : Run Unit :=
  step [.tcflush fd] <|
  if r = -1 then die "tcflush()" buf rs ws else ⟨[], .ret (), buf, rs, ws⟩

/-- The function `set_raw_mode` (main.c:29-38); `rget` and `rset` are what
`tcgetattr` and `tcsetattr` return. -/
def set_raw_mode (fd : Int) (rget rset : Int) (buf : List Nat) (rs : List ReadRes)
    (ws : List Int) : Run Unit :=
  step [.tcgetattr fd] <|
  if rget = -1 then die "tcgetattr()" buf rs ws else
  step [.cfmakeraw, .tcsetattr fd] <|
  if rset = -1 then die "tcsetattr()" buf rs ws else ⟨[], .ret (), buf, rs, ws⟩

/-! ## `main` -/

/-- What the operating system answers to the calls of one process running
`main`.  `fork` is `0` in the child, the child's pid in the parent.
`child_status` is the wait status of the child, which `waitpid` stores through
its second argument when that is not `NULL`. -/
structure Env where
  posix_openpt : Int
  grantpt : Int
  unlockpt : Int
  ptsname : Option String
  open_slave : Int
  fork : Int
  tcflush : Int
  dup2_stdin : Int
  dup2_stdout : Int
  dup2_stderr : Int
  execvp : ExecRes
  tcgetattr : Int
  tcsetattr : Int
  epoll_create1 : Int
  epoll_ctl : Int
  polls : List EpollRes
  reads : List ReadRes
  writes : List Int
  waitpid : Int
  child_status : Int
  deriving Repr

/-- The end of `main` after the relay loop (main.c:153-156): `waitpid` with a
`NULL` status pointer, then `return 0`. -/
def main_reap (pid : Int) (env : Env) (buf : List Nat) (rs : List ReadRes)
    (ws : List Int) : Run Int :=
  step [.waitpid pid none] <|
  if env.waitpid = -1 then die "waitpid()" buf rs ws else ⟨[], .ret 0, buf, rs, ws⟩

/-- The code of `main` after the `if (pid == 0)` block (main.c:146-156). -/
def main_parent (mfd sfd pid : Int) (env : Env) (buf : List Nat) (rs : List ReadRes)
    (ws : List Int) : Run Int :=
  step [.close mfd] <|
  (set_raw_mode sfd env.tcgetattr env.tcsetattr buf rs ws).andThen fun _ b1 r1 w1 =>
  step [.close STDERR_FILENO, .close STDIN_FILENO] <|
  (do_poll sfd env.epoll_create1 env.epoll_ctl env.polls b1 r1 w1).andThen fun _ b2 r2 w2 =>
  main_reap pid env b2 r2 w2

/-- The block `if (pid == 0) { ... }` of `main` (main.c:133-143). -/
def main_child (argc : Int) (argv : List (Option String)) (mfd sfd : Int) (env : Env)
    (buf : List Nat) (rs : List ReadRes) (ws : List Int) : Run Int :=
  step [.close sfd] <|
  (flush_pts mfd env.tcflush buf rs ws).andThen fun _ b1 r1 w1 =>
  step [.dup2 mfd STDIN_FILENO] <|
  if env.dup2_stdin = -1 then die "dup2()" b1 r1 w1 else
  step [.dup2 mfd STDOUT_FILENO] <|
  if env.dup2_stdout = -1 then die "dup2()" b1 r1 w1 else
  step [.dup2 mfd STDERR_FILENO] <|
  if env.dup2_stderr = -1 then die "dup2()" b1 r1 w1 else
  do_exec argc argv env.execvp b1 r1 w1

/-- The function `main` (main.c:105-157).  The static buffer of `print_buf`
starts zero-filled. -/
def main (argc : Int) (argv : List (Option String)) (env : Env) : Run Int :=
  let buf := List.replicate BUF_SIZE 0
  let rs := env.reads
  let ws := env.writes
  (if argc < 2 then usage argv buf rs ws else ⟨[], .ret (), buf, rs, ws⟩).andThen
  fun _ _ _ _ =>
  let mfd := env.posix_openpt
  step [.posix_openpt] <|
  if mfd = -1 then die "posix_openpt()" buf rs ws else
  step [.grantpt mfd] <|
  if env.grantpt ≠ 0 then die "grantpt()" buf rs ws else
  step [.unlockpt mfd] <|
  if env.unlockpt ≠ 0 then die "unlockpt()" buf rs ws else
  let sfd := env.open_slave
  step [.ptsname mfd, .open_rdwr env.ptsname] <|
  if sfd = -1 then die "open()" buf rs ws else
  let pid := env.fork
  step [.fork] <|
  if pid = -1 then die "fork()" buf rs ws else
  (if pid = 0 then main_child argc argv mfd sfd env buf rs ws
   else ⟨[], .ret 0, buf, rs, ws⟩).andThen
  fun _ b1 r1 w1 => main_parent mfd sfd pid env b1 r1 w1

/-! ## Observations on traces -/

/-- The `write` calls of a trace, in order: descriptor and bytes handed over. -/
def writes_of : List Call → List (Int × List Nat)
  | [] => []
  | .write fd bytes _ :: cs => (fd, bytes) :: writes_of cs
  | _ :: cs => writes_of cs

/-- The bytes that reach standard output: for every `write` to descriptor 1
that returns `r ≥ 0`, the first `r` bytes it was given. -/
def stdout_bytes : List Call → List Nat
  | [] => []
  | .write fd bytes (some r) :: cs =>
    if fd = STDOUT_FILENO ∧ 0 ≤ r then bytes.take r.toNat ++ stdout_bytes cs
    else stdout_bytes cs
  | _ :: cs => stdout_bytes cs

/-- The number of `read` calls of a trace. -/
def reads_count : List Call → Nat
  | [] => 0
  | .read _ _ :: cs => reads_count cs + 1
  | _ :: cs => reads_count cs

/-- One result of a `read` that does not end `print_buf`: a chunk of bytes or
an interruption (`-1` with `errno = EINTR`). -/
inductive ReadItem where
  | chunk (d : List Nat)
  | eintr
  deriving DecidableEq, Repr

/-- The result of `read` for an item. -/
def ReadItem.res : ReadItem → ReadRes
  | .chunk d => .data d
  | .eintr => .error EINTR

/-- The chunks among the items, in order. -/
def chunks_of : List ReadItem → List (List Nat)
  | [] => []
  | .chunk d :: is => d :: chunks_of is
  | .eintr :: is => chunks_of is

/-- The calls `print_buf` issues for a sequence of items when every write
accepts its whole chunk: a `read` and a `write` per chunk, a lone `read` per
interruption. -/
def relay_trace (sfd : Int) : List ReadItem → List Call
  | [] => []
  | .chunk d :: is =>
    .read sfd BUF_SIZE :: .write STDOUT_FILENO d (some (d.length : Int)) :: relay_trace sfd is
  | .eintr :: is => .read sfd BUF_SIZE :: relay_trace sfd is

/-- A sequence of read results without its interruptions. -/
def drop_eintr : List ReadRes → List ReadRes
  | [] => []
  | .error e :: rs => if e = EINTR then drop_eintr rs else .error e :: drop_eintr rs
  | .data d :: rs => .data d :: drop_eintr rs

/-- A parent process whose relayed descriptor gives "h", then end of stream on
every later read; `epoll_wait` reports the descriptor readable three times. -/
def env_eof : Env :=
  { posix_openpt := 3, grantpt := 0, unlockpt := 0, ptsname := some "/dev/pts/7",
    open_slave := 4, fork := 77, tcflush := 0,
    dup2_stdin := 0, dup2_stdout := 1, dup2_stderr := 2, execvp := .replaced,
    tcgetattr := 0, tcsetattr := 0, epoll_create1 := 5, epoll_ctl := 0,
    polls := [.ready [⟨EPOLLIN, 4⟩], .ready [⟨EPOLLIN, 4⟩], .ready [⟨EPOLLIN, 4⟩]],
    reads := [.data [104], .data [], .data [], .data []],
    writes := [1], waitpid := 77, child_status := 0 }

/-- The descriptors closed in a trace, in order. -/
def closes_of : List Call → List Int
  | [] => []
  | .close fd :: cs => fd :: closes_of cs
  | _ :: cs => closes_of cs

/-- The `dup2` calls of a trace, in order: source and target descriptor. -/
def dup2s_of : List Call → List (Int × Int)
  | [] => []
  | .dup2 o n :: cs => (o, n) :: dup2s_of cs
  | _ :: cs => dup2s_of cs

/-- The calls of `main` that come after the `if (pid == 0)` block, the `close`
calls apart: raw mode, the relay loop, the reaper. -/
def parent_call : Call → Bool
  | .tcgetattr _ => true
  | .cfmakeraw => true
  | .tcsetattr _ => true
  | .epoll_create1 _ => true
  | .epoll_ctl_add _ _ _ => true
  | .epoll_wait _ _ => true
  | .read _ _ => true
  | .write _ _ _ => true
  | .waitpid _ _ => true
  | _ => false

/-- A child process (`fork` returns 0) with master descriptor 3 and slave
descriptor 4, in which `execvp` succeeds. -/
def env_child : Env :=
  { posix_openpt := 3, grantpt := 0, unlockpt := 0, ptsname := some "/dev/pts/7",
    open_slave := 4, fork := 0, tcflush := 0,
    dup2_stdin := 0, dup2_stdout := 1, dup2_stderr := 2, execvp := .replaced,
    tcgetattr := 0, tcsetattr := 0, epoll_create1 := 5, epoll_ctl := 0,
    polls := [], reads := [], writes := [], waitpid := 0, child_status := 0 }

@[simp] theorem step_trace {α : Type} (cs : List Call) (r : Run α) :
    (step cs r).trace = cs ++ r.trace := rfl

@[simp] theorem step_out {α : Type} (cs : List Call) (r : Run α) :
    (step cs r).out = r.out := rfl

@[simp] theorem step_buf {α : Type} (cs : List Call) (r : Run α) :
    (step cs r).buf = r.buf := rfl

@[simp] theorem step_reads {α : Type} (cs : List Call) (r : Run α) :
    (step cs r).reads = r.reads := rfl

@[simp] theorem step_writes {α : Type} (cs : List Call) (r : Run α) :
    (step cs r).writes = r.writes := rfl

theorem writes_of_append (a b : List Call) :
    writes_of (a ++ b) = writes_of a ++ writes_of b := by
  induction a with
  | nil => rfl
  | cons c cs ih => cases c <;> simp [writes_of, ih]

theorem stdout_bytes_append (a b : List Call) :
    stdout_bytes (a ++ b) = stdout_bytes a ++ stdout_bytes b := by
  induction a with
  | nil => rfl
  | cons c cs ih =>
    cases c with
    | write fd bytes ret =>
      cases ret with
      | none => simp [stdout_bytes, ih]
      | some r => by_cases h : fd = STDOUT_FILENO ∧ 0 ≤ r <;> simp [stdout_bytes, ih, h]
    | _ => simp [stdout_bytes, ih]

theorem reads_count_append (a b : List Call) :
    reads_count (a ++ b) = reads_count a + reads_count b := by
  induction a with
  | nil => simp [reads_count]
  | cons c cs ih => cases c <;> simp [reads_count, ih]; omega

/-- An interrupted `read` is retried: nothing but the `read` itself is issued
and the buffer is as before. -/
theorem print_buf_eintr (sfd : Int) (buf : List Nat) (rs : List ReadRes) (ws : List Int) :
    print_buf sfd buf (.error EINTR :: rs) ws
      = step [.read sfd BUF_SIZE] (print_buf sfd buf rs ws) := by
  simp [print_buf, sys_read, ReadRes.errno]

/-- A `read` that fails with another errno ends the process. -/
theorem print_buf_error (sfd : Int) (buf : List Nat) (e : Nat) (he : e ≠ EINTR)
    (rs : List ReadRes) (ws : List Int) :
    print_buf sfd buf (.error e :: rs) ws
      = step [.read sfd BUF_SIZE] (die "read()" buf rs ws) := by
  simp [print_buf, sys_read, ReadRes.errno, he]

/-- A `read` of zero bytes ends `print_buf`. -/
theorem print_buf_eof (sfd : Int) (buf : List Nat) (rs : List ReadRes) (ws : List Int) :
    print_buf sfd buf (.data [] :: rs) ws = ⟨[.read sfd BUF_SIZE], .ret (), buf, rs, ws⟩ := by
  simp [print_buf, sys_read]

/-- A `read` of a non-empty chunk that fits the buffer is followed by one
`write` of exactly that chunk. -/
theorem print_buf_chunk (sfd : Int) (buf d : List Nat) (hd : d ≠ [])
    (hlen : d.length ≤ BUF_SIZE) (rs : List ReadRes) (w : Int) (ws : List Int) :
    print_buf sfd buf (.data d :: rs) (w :: ws)
      = step [.read sfd BUF_SIZE, .write STDOUT_FILENO d (some w)]
          (print_buf sfd ((d ++ buf.drop d.length).set 0 0) rs ws) := by
  have hpos : 0 < d.length := List.length_pos.mpr hd
  have hmin : min d.length BUF_SIZE = d.length := Nat.min_eq_left hlen
  have h1 : ((min d.length BUF_SIZE : Nat) : Int) ≠ -1 := by omega
  have h0 : ((min d.length BUF_SIZE : Nat) : Int) ≠ 0 := by omega
  have htake : d.take BUF_SIZE = d := List.take_of_length_le hlen
  simp only [print_buf, sys_read, h1, h0, if_false, htake, hmin]
  simp [hd]

/-! ## C1: the relay writes what it reads -/

/-- C1. For every finite sequence of read results made of non-empty chunks of
at most 4096 bytes and EINTR failures in any interleaving, ended by a
zero-byte read, with every write accepting its whole chunk, `print_buf`
returns after issuing exactly one write to standard output per chunk, carrying
exactly that chunk, in the order read; the bytes reaching standard output are
the concatenation of the chunks; one read is issued per item plus the final
one, and nothing after the zero-byte read is consumed. -/
theorem print_buf_relays_chunks (sfd : Int) (items : List ReadItem)
    (hitems : ∀ d, ReadItem.chunk d ∈ items → d ≠ [] ∧ d.length ≤ BUF_SIZE)
    (buf : List Nat) (rest : List ReadRes) (wrest : List Int) :
    (print_buf sfd buf (items.map ReadItem.res ++ .data [] :: rest)
        ((chunks_of items).map (fun d => (d.length : Int)) ++ wrest)).out = .ret () ∧
    writes_of (print_buf sfd buf (items.map ReadItem.res ++ .data [] :: rest)
        ((chunks_of items).map (fun d => (d.length : Int)) ++ wrest)).trace
      = (chunks_of items).map (fun d => (STDOUT_FILENO, d)) ∧
    stdout_bytes (print_buf sfd buf (items.map ReadItem.res ++ .data [] :: rest)
        ((chunks_of items).map (fun d => (d.length : Int)) ++ wrest)).trace
      = (chunks_of items).flatten ∧
    reads_count (print_buf sfd buf (items.map ReadItem.res ++ .data [] :: rest)
        ((chunks_of items).map (fun d => (d.length : Int)) ++ wrest)).trace
      = items.length + 1 ∧
    (print_buf sfd buf (items.map ReadItem.res ++ .data [] :: rest)
        ((chunks_of items).map (fun d => (d.length : Int)) ++ wrest)).reads = rest ∧
    (print_buf sfd buf (items.map ReadItem.res ++ .data [] :: rest)
        ((chunks_of items).map (fun d => (d.length : Int)) ++ wrest)).writes = wrest := by
  induction items generalizing buf with
  | nil =>
    simp [chunks_of, print_buf_eof, writes_of, stdout_bytes, reads_count]
  | cons it its ih =>
    have hits : ∀ d, ReadItem.chunk d ∈ its → d ≠ [] ∧ d.length ≤ BUF_SIZE :=
      fun d hd => hitems d (List.mem_cons_of_mem _ hd)
    cases it with
    | eintr =>
      have h := ih hits buf
      simp only [List.map_cons, ReadItem.res, List.cons_append, print_buf_eintr, chunks_of,
        step_trace, step_out, step_reads, step_writes, writes_of_append,
        stdout_bytes_append, reads_count_append, List.length_cons]
      refine ⟨h.1, ?_, ?_, ?_, h.2.2.2.2.1, h.2.2.2.2.2⟩
      · simpa [writes_of] using h.2.1
      · simpa [stdout_bytes] using h.2.2.1
      · simp [reads_count, h.2.2.2.1]
    | chunk d =>
      obtain ⟨hd, hlen⟩ := hitems d (List.mem_cons_self _ _)
      have h := ih hits ((d ++ buf.drop d.length).set 0 0)
      simp only [List.map_cons, ReadItem.res, List.cons_append, chunks_of,
        print_buf_chunk sfd buf d hd hlen,
        step_trace, step_out, step_reads, step_writes, writes_of_append,
        stdout_bytes_append, reads_count_append, List.length_cons]
      refine ⟨h.1, ?_, ?_, ?_, h.2.2.2.2.1, h.2.2.2.2.2⟩
      · simpa [writes_of] using h.2.1
      · simp [stdout_bytes, h.2.2.1]
      · simp [reads_count, h.2.2.2.1]

/-- C1 at a concrete script: chunks "hi" and "!" with an interruption between
them. -/
theorem print_buf_relays_chunks_witness :
    writes_of (print_buf 4 (List.replicate BUF_SIZE 0)
        ([ReadItem.chunk [104, 105], .eintr, .chunk [33]].map ReadItem.res ++ .data [] :: [])
        ((chunks_of [ReadItem.chunk [104, 105], .eintr, .chunk [33]]).map
          (fun d => (d.length : Int)) ++ [])).trace
      = [(1, [104, 105]), (1, [33])] :=
  have h : ∀ d, ReadItem.chunk d ∈ [ReadItem.chunk [104, 105], .eintr, .chunk [33]] →
      d ≠ [] ∧ d.length ≤ BUF_SIZE := by
    intro d hd
    simp at hd
    rcases hd with rfl | rfl <;> simp [BUF_SIZE]
  (print_buf_relays_chunks 4 _ h (List.replicate BUF_SIZE 0) [] []).2.1

/-! ## C6: failed reads -/

theorem step_step {α : Type} (a b : List Call) (r : Run α) :
    step a (step b r) = step (a ++ b) r := by
  simp [step]

/-- A prefix of chunks and interruptions is relayed, whatever follows. -/
theorem print_buf_items_then (sfd : Int) (items : List ReadItem)
    (hitems : ∀ d, ReadItem.chunk d ∈ items → d ≠ [] ∧ d.length ≤ BUF_SIZE)
    (buf : List Nat) (tl : List ReadRes) (wtl : List Int) :
    ∃ buf1, print_buf sfd buf (items.map ReadItem.res ++ tl)
        ((chunks_of items).map (fun d => (d.length : Int)) ++ wtl)
      = step (relay_trace sfd items) (print_buf sfd buf1 tl wtl) := by
  induction items generalizing buf with
  | nil => exact ⟨buf, by simp [chunks_of, relay_trace, step]⟩
  | cons it its ih =>
    have hits : ∀ d, ReadItem.chunk d ∈ its → d ≠ [] ∧ d.length ≤ BUF_SIZE :=
      fun d hd => hitems d (List.mem_cons_of_mem _ hd)
    cases it with
    | eintr =>
      obtain ⟨b, hb⟩ := ih hits buf
      exact ⟨b, by
        simp only [List.map_cons, ReadItem.res, List.cons_append, print_buf_eintr, chunks_of,
          hb, step_step, relay_trace, List.singleton_append, List.nil_append]⟩
    | chunk d =>
      obtain ⟨hd, hlen⟩ := hitems d (List.mem_cons_self _ _)
      obtain ⟨b, hb⟩ := ih hits ((d ++ buf.drop d.length).set 0 0)
      exact ⟨b, by
        simp only [List.map_cons, ReadItem.res, List.cons_append, chunks_of,
          print_buf_chunk sfd buf d hd hlen, hb, step_step, relay_trace,
          List.singleton_append, List.nil_append, List.cons_append, List.map_cons]⟩

/-- Interruptions change neither the writes nor the outcome of `print_buf`. -/
theorem print_buf_drop_eintr (sfd : Int) (rs : List ReadRes) :
    ∀ (buf : List Nat) (ws : List Int),
      writes_of (print_buf sfd buf rs ws).trace
        = writes_of (print_buf sfd buf (drop_eintr rs) ws).trace ∧
      stdout_bytes (print_buf sfd buf rs ws).trace
        = stdout_bytes (print_buf sfd buf (drop_eintr rs) ws).trace ∧
      (print_buf sfd buf rs ws).out = (print_buf sfd buf (drop_eintr rs) ws).out := by
  induction rs with
  | nil => intro buf ws; simp [drop_eintr]
  | cons r rs ih =>
    intro buf ws
    cases r with
    | error e =>
      by_cases he : e = EINTR
      · subst he
        have h := ih buf ws
        simp only [drop_eintr, if_true, print_buf_eintr, step_trace, step_out,
          writes_of_append, stdout_bytes_append]
        simpa [writes_of, stdout_bytes] using h
      · simp [drop_eintr, he, print_buf_error, die, writes_of, stdout_bytes]
    | data d =>
      have h1 : ((min d.length BUF_SIZE : Nat) : Int) ≠ -1 := by omega
      simp only [drop_eintr, print_buf, sys_read, h1, if_false]
      by_cases h0 : ((min d.length BUF_SIZE : Nat) : Int) = 0
      · simp [h0, writes_of, stdout_bytes]
      · simp only [h0, if_false]
        cases ws with
        | nil => simp [writes_of, stdout_bytes]
        | cons w ws1 =>
          have h := ih ((d.take BUF_SIZE ++ buf.drop (min d.length BUF_SIZE)).set 0 0) ws1
          simp only [step_trace, step_out, writes_of_append, stdout_bytes_append]
          exact ⟨by rw [h.1], by rw [h.2.1], h.2.2⟩

/-- C6. In `print_buf` a read that fails with EINTR is retried: only the read
itself is issued, no write, and the loop goes on with the same buffer; so the
writes, the bytes reaching standard output and the outcome are those of the
same sequence of reads without its interruptions.  A read that fails with any
other errno, after any relayed prefix, ends the process with status
EXIT_FAILURE, which is not zero, right after `perror`: the trace ends there,
no later read result and no later write result is consumed. -/
theorem print_buf_read_failures (sfd : Int) (items : List ReadItem)
    (hitems : ∀ d, ReadItem.chunk d ∈ items → d ≠ [] ∧ d.length ≤ BUF_SIZE)
    (e : Nat) (he : e ≠ EINTR) (buf : List Nat) (rs rest : List ReadRes)
    (ws wrest : List Int) :
    print_buf sfd buf (.error EINTR :: rs) ws
      = step [.read sfd BUF_SIZE] (print_buf sfd buf rs ws) ∧
    (writes_of (print_buf sfd buf rs ws).trace
        = writes_of (print_buf sfd buf (drop_eintr rs) ws).trace ∧
      stdout_bytes (print_buf sfd buf rs ws).trace
        = stdout_bytes (print_buf sfd buf (drop_eintr rs) ws).trace ∧
      (print_buf sfd buf rs ws).out = (print_buf sfd buf (drop_eintr rs) ws).out) ∧
    ((print_buf sfd buf (items.map ReadItem.res ++ .error e :: rest)
        ((chunks_of items).map (fun d => (d.length : Int)) ++ wrest)).out
        = .exited EXIT_FAILURE ∧
      EXIT_FAILURE ≠ 0 ∧
      (print_buf sfd buf (items.map ReadItem.res ++ .error e :: rest)
        ((chunks_of items).map (fun d => (d.length : Int)) ++ wrest)).trace
        = relay_trace sfd items
            ++ [.read sfd BUF_SIZE, .perror "read()", .exit EXIT_FAILURE] ∧
      (print_buf sfd buf (items.map ReadItem.res ++ .error e :: rest)
        ((chunks_of items).map (fun d => (d.length : Int)) ++ wrest)).reads = rest ∧
      (print_buf sfd buf (items.map ReadItem.res ++ .error e :: rest)
        ((chunks_of items).map (fun d => (d.length : Int)) ++ wrest)).writes = wrest) := by
  refine ⟨print_buf_eintr sfd buf rs ws, print_buf_drop_eintr sfd rs buf ws, ?_⟩
  obtain ⟨b, hb⟩ := print_buf_items_then sfd items hitems buf (.error e :: rest) wrest
  rw [hb, print_buf_error sfd b e he]
  simp [die, EXIT_FAILURE]

/-- C6 at a concrete script: the chunk "h", then a read failing with EIO (5). -/
theorem print_buf_read_failures_witness :
    (5 : Nat) ≠ EINTR ∧
    (print_buf 4 (List.replicate BUF_SIZE 0)
        ([ReadItem.chunk [104]].map ReadItem.res ++ .error 5 :: [.data [105]])
        ((chunks_of [ReadItem.chunk [104]]).map (fun d => (d.length : Int)) ++ [1])).trace
      = relay_trace 4 [ReadItem.chunk [104]]
          ++ [.read 4 BUF_SIZE, .perror "read()", .exit EXIT_FAILURE] :=
  have h : ∀ d, ReadItem.chunk d ∈ [ReadItem.chunk [104]] →
      d ≠ [] ∧ d.length ≤ BUF_SIZE := by
    intro d hd
    simp at hd
    subst hd
    simp [BUF_SIZE]
  ⟨by decide, (print_buf_read_failures 4 [ReadItem.chunk [104]] h 5 (by decide)
    (List.replicate BUF_SIZE 0) [] [.data [105]] [] [1]).2.2.2.2.1⟩

/-! ## C7: a failed write -/

/-- C7, the code at a failing input.  The reads give "hi", "!" and end of
stream; the first write returns -1.  `print_buf` goes on: it reads and writes
the second chunk, reads the end of stream and returns; the process does not
exit, and only "!" reaches standard output. -/
theorem print_buf_ignores_write_failure :
    (print_buf 4 (List.replicate BUF_SIZE 0) [.data [104, 105], .data [33], .data []]
        [-1, 1]).trace
      = [.read 4 BUF_SIZE, .write STDOUT_FILENO [104, 105] (some (-1)),
         .read 4 BUF_SIZE, .write STDOUT_FILENO [33] (some 1), .read 4 BUF_SIZE] ∧
    (print_buf 4 (List.replicate BUF_SIZE 0) [.data [104, 105], .data [33], .data []]
        [-1, 1]).out = .ret () ∧
    stdout_bytes (print_buf 4 (List.replicate BUF_SIZE 0)
        [.data [104, 105], .data [33], .data []] [-1, 1]).trace = [33] := by
  have h1 : ([104, 105] : List Nat) ≠ [] ∧ ([104, 105] : List Nat).length ≤ BUF_SIZE := by
    simp [BUF_SIZE]
  have h2 : ([33] : List Nat) ≠ [] ∧ ([33] : List Nat).length ≤ BUF_SIZE := by
    simp [BUF_SIZE]
  rw [print_buf_chunk 4 _ _ h1.1 h1.2, print_buf_chunk 4 _ _ h2.1 h2.2, print_buf_eof]
  simp [stdout_bytes, STDOUT_FILENO]

/-! ## C2: the relay loop after end of stream -/

theorem andThen_out_ret {α β : Type} (r : Run α)
    (k : α → List Nat → List ReadRes → List Int → Run β) (b : β)
    (h : (r.andThen k).out = .ret b) :
    ∃ a, r.out = .ret a ∧ (k a r.buf r.reads r.writes).out = .ret b := by
  unfold Run.andThen at h
  cases hr : r.out with
  | ret a => rw [hr] at h; exact ⟨a, rfl, by simpa using h⟩
  | exited s => rw [hr] at h; simp at h
  | execed => rw [hr] at h; simp at h
  | blocked => rw [hr] at h; simp at h
  | undefined => rw [hr] at h; simp at h

/-- The loop of `do_poll` has no way out but `exit`: it never returns. -/
theorem do_poll_loop_never_returns (efd sfd : Int) (polls : List EpollRes) :
    ∀ (buf : List Nat) (rs : List ReadRes) (ws : List Int),
      (do_poll_loop efd sfd polls buf rs ws).out ≠ .ret () := by
  induction polls with
  | nil => intro buf rs ws; simp [do_poll_loop]
  | cons p ps ih =>
    intro buf rs ws
    cases p with
    | error e => simp [do_poll_loop, die]
    | ready evs =>
      simp only [do_poll_loop, step_out]
      intro h
      obtain ⟨_, _, h2⟩ := andThen_out_ret _ _ _ h
      exact ih _ _ _ h2

/-- The function `do_poll` never returns to its caller. -/
theorem do_poll_never_returns (sfd efd ctl : Int) (polls : List EpollRes)
    (buf : List Nat) (rs : List ReadRes) (ws : List Int) :
    (do_poll sfd efd ctl polls buf rs ws).out ≠ .ret () := by
  unfold do_poll
  by_cases h1 : efd = -1
  · simp [h1, die]
  · by_cases h2 : ctl = -1
    · simp [h1, h2, die]
    · simp only [h1, h2, if_false, step_out]
      exact do_poll_loop_never_returns efd sfd polls buf rs ws

/-- C2, the code at a failing input.  In the parent the first readiness event
makes `print_buf` read "h" and then zero bytes.  After that zero-byte read
`do_poll` calls `epoll_wait` again, and again after each further zero-byte
read; when no event comes any more the process stays blocked in `epoll_wait`.
`main` never calls `waitpid`. -/
theorem do_poll_waits_after_eof :
    (main 2 [some "ptout", some "true", none] env_eof).trace
      = [.posix_openpt, .grantpt 3, .unlockpt 3, .ptsname 3,
         .open_rdwr (some "/dev/pts/7"), .fork, .close 3,
         .tcgetattr 4, .cfmakeraw, .tcsetattr 4, .close 2, .close 0,
         .epoll_create1 0, .epoll_ctl_add 5 4 ⟨1, 4⟩,
         .epoll_wait 5 10, .read 4 4096, .write 1 [104] (some 1), .read 4 4096,
         .epoll_wait 5 10, .read 4 4096,
         .epoll_wait 5 10, .read 4 4096,
         .epoll_wait 5 10] ∧
    (main 2 [some "ptout", some "true", none] env_eof).out = .blocked := by
  constructor <;> rfl

/-! ## C10 and C3: the argument vector of `do_exec` -/

/-- A `memcpy` inside both arrays succeeds; it changes exactly the slots
`args[di..di+n)`, to `argv[si..si+n)`, and these are the indices it logs. -/
theorem memcpy_ptrs_spec (b : ArgsBuild) (di : Nat) (argv : List (Option String))
    (si : Nat) :
    ∀ n, si + n ≤ argv.length → di + n ≤ b.args.length →
      ∃ c, memcpy_ptrs b di argv si n = some c ∧
        c.args.length = b.args.length ∧
        (∀ i, c.args[i]? = if di ≤ i ∧ i < di + n then argv[si + (i - di)]? else b.args[i]?) ∧
        c.argv_read = b.argv_read ++ List.range' si n ∧
        c.args_written = b.args_written ++ List.range' di n := by
  intro n
  induction n with
  | zero =>
    intro _ _
    refine ⟨b, rfl, rfl, ?_, by simp, by simp⟩
    intro i
    have : ¬ (di ≤ i ∧ i < di) := by omega
    simp [this]
  | succ n ih =>
    intro hs hd
    obtain ⟨c, hc, hlen, hget, hr, hw⟩ := ih (by omega) (by omega)
    have h1 : si + n < argv.length := by omega
    have h2 : di + n < c.args.length := by omega
    refine ⟨⟨c.args.set (di + n) (argv.getD (si + n) none), c.argv_read ++ [si + n],
      c.args_written ++ [di + n]⟩, ?_, by simp [hlen], ?_, ?_, ?_⟩
    · simp [memcpy_ptrs, hc, ArgsBuild.load, ArgsBuild.store, h1, h2]
    · intro i
      simp only [List.getElem?_set, hget]
      by_cases hi : di + n = i
      · subst hi
        have hin : di ≤ di + n ∧ di + n < di + (n + 1) := by omega
        have hsub : si + (di + n - di) = si + n := by omega
        simp [h2, hin, hsub, List.getD_eq_getElem?_getD, List.getElem?_eq_getElem h1]
      · by_cases hin : di ≤ i ∧ i < di + n
        · have hin2 : di ≤ i ∧ i < di + (n + 1) := by omega
          simp [hi, hin, hin2]
        · have hin2 : ¬ (di ≤ i ∧ i < di + (n + 1)) := by omega
          simp [hi, hin, hin2]
    · simp [hr, List.range'_1_concat]
    · simp [hw, List.range'_1_concat]

/-- The array `args` that `do_exec` builds, for a well-sized `argv`. -/
theorem do_exec_args_eq (argc : Nat) (argv : List (Option String))
    (h2 : 2 ≤ argc) (hmax : (argc : Int) < INT_MAX) (hlen : argv.length = argc + 1) :
    do_exec_args argc argv = some
      (if 2 < argc then
        ⟨argv.getD 1 none :: argv.getD 1 none :: argv.drop 2,
          1 :: List.range' 2 (argc - 1), [1, 0] ++ List.range' 2 (argc - 1)⟩
      else ⟨[argv.getD 1 none, argv.getD 1 none, none], [1], [1, 0]⟩) := by
  obtain ⟨n, rfl⟩ : ∃ n, argc = n + 2 := ⟨argc - 2, by omega⟩
  have hov : ¬ (((n + 2 : Nat) : Int) + 1 > INT_MAX ∨ ((n + 2 : Nat) : Int) + 1 < 0) := by
    unfold INT_MAX at *; omega
  have hn1 : (((n + 2 : Nat) : Int) + 1).toNat = n + 3 := by omega
  have hn2 : (((n + 2 : Nat) : Int) + 1 - 2).toNat = n + 1 := by omega
  have hb : 1 < argv.length := by omega
  have hrep : List.replicate (n + 3) (none : Option String)
      = none :: none :: List.replicate (n + 1) none := rfl
  unfold do_exec_args
  simp only [hov, if_false, hn1, hn2]
  simp only [ArgsBuild.load, ArgsBuild.store, hb, if_true, hrep, List.length_cons,
    List.set_cons_succ, List.set_cons_zero, List.nil_append, List.length_set,
    Nat.lt_add_left_iff_pos, Nat.zero_lt_succ, Nat.lt_add_one, List.singleton_append]
  by_cases hn : n = 0
  · subst hn
    simp
  · have hgt : ((n + 2 : Nat) : Int) > 2 := by omega
    have hgt2 : 2 < n + 2 := by omega
    simp only [hgt, hgt2, if_true]
    obtain ⟨c, hc, hclen, hget, hr, hw⟩ := memcpy_ptrs_spec
      ⟨argv.getD 1 none :: argv.getD 1 none :: List.replicate (n + 1) none, [1], [1, 0]⟩
      2 argv 2 (n + 1) (by omega) (by simp; omega)
    have hsub : n + 2 - 1 = n + 1 := by omega
    rw [hc, hsub, if_pos (by omega : 0 < n)]
    congr 1
    cases c with
    | mk cargs cread cwritten =>
      simp only at hclen hget hr hw
      have hargs : cargs = argv.getD 1 none :: argv.getD 1 none :: argv.drop 2 := by
        apply List.ext_getElem?
        intro i
        rw [hget i]
        match i with
        | 0 => simp
        | 1 => simp
        | j + 2 =>
          have hsub2 : 2 + (j + 2 - 2) = 2 + j := by omega
          by_cases hj : j + 2 < 2 + (n + 1)
          · simp [hj, hsub2, List.getElem?_drop]
          · have hout : argv.length ≤ 2 + j := by omega
            simp [hj, List.getElem?_drop, List.getElem?_eq_none hout]
            omega
      rw [hargs, hr, hw]
      rfl

/-- C10. For every `argc ≥ 2` that `argc + 1` still fits an `int`, and an
`argv` of `argc + 1` slots whose last is `NULL`, building the argument vector
has no out-of-bounds access: `args` has `argc + 1` slots; every index of `argv`
read and every index of `args` written is inside its array; when `argc > 2`
the copy reads `argv[2..argc]` and writes `args[2..argc]`; when `argc = 2`
nothing is copied and `args[2]` keeps the `NULL` of the zero fill; the last
slot `args[argc]` is `NULL`, so `execvp` finds its terminator inside the
array. -/
theorem do_exec_args_in_bounds (argc : Nat) (argv : List (Option String))
    (h2 : 2 ≤ argc) (hmax : (argc : Int) < INT_MAX) (hlen : argv.length = argc + 1)
    (hnull : argv[argc]? = some none) :
    ∃ b, do_exec_args argc argv = some b ∧
      b.args.length = argc + 1 ∧
      (∀ i ∈ b.argv_read, i < argv.length) ∧
      (∀ i ∈ b.args_written, i < b.args.length) ∧
      (2 < argc → b.argv_read = 1 :: List.range' 2 (argc - 1) ∧
        b.args_written = [1, 0] ++ List.range' 2 (argc - 1)) ∧
      (argc = 2 → b.argv_read = [1] ∧ b.args_written = [1, 0] ∧ b.args[2]? = some none) ∧
      b.args[argc]? = some none ∧
      (exec_vector b.args).isSome = true := by
  refine ⟨_, do_exec_args_eq argc argv h2 hmax hlen, ?_⟩
  by_cases hgt : 2 < argc
  · rw [if_pos hgt]
    have hlast : (argv.getD 1 none :: argv.getD 1 none :: argv.drop 2)[argc]? = some none := by
      obtain ⟨n, rfl⟩ : ∃ n, argc = n + 2 := ⟨argc - 2, by omega⟩
      simpa [List.getElem?_drop, Nat.add_comm] using hnull
    have hmem : (none : Option String) ∈ argv.drop 2 := by
      obtain ⟨n, rfl⟩ : ∃ n, argc = n + 2 := ⟨argc - 2, by omega⟩
      have : (argv.drop 2)[n]? = some none := by
        simpa [List.getElem?_drop, Nat.add_comm] using hnull
      exact List.getElem?_mem this
    refine ⟨by simp; omega, ?_, ?_, fun _ => ⟨rfl, rfl⟩, fun h => by omega, hlast, ?_⟩
    · intro i hi
      simp [List.mem_range'_1] at hi
      omega
    · intro i hi
      simp [List.mem_range'_1] at hi
      simp
      omega
    · simp [exec_vector, hmem]
  · have h : argc = 2 := by omega
    subst h
    simp [exec_vector, hlen]

/-- C10 at `ptout ls -l /`. -/
theorem do_exec_args_in_bounds_witness :
    ∃ b, do_exec_args (4 : Nat) [some "ptout", some "ls", some "-l", some "/", none] = some b ∧
      b.args.length = 4 + 1 ∧ b.args[4]? = some none :=
  have h := do_exec_args_in_bounds 4 [some "ptout", some "ls", some "-l", some "/", none]
    (by decide) (by decide) rfl rfl
  h.imp fun _ hb => ⟨hb.1, hb.2.1, hb.2.2.2.2.2.2.1⟩

theorem takeWhile_isSome_map_some (l : List String) (t : List (Option String)) :
    (l.map some ++ none :: t).takeWhile (fun a => a.isSome) = l.map some := by
  induction l with
  | nil => simp
  | cons x l ih => simp [List.takeWhile_cons, ih]

theorem two_entries (xs : List String) (h2 : 2 ≤ xs.length) :
    ∃ x0 x1 l, xs = x0 :: x1 :: l := by
  cases xs with
  | nil => simp at h2
  | cons x0 t =>
    cases t with
    | nil => simp at h2
    | cons x1 l => exact ⟨x0, x1, l, rfl⟩

/-- What `do_exec` hands to `execvp` for the entries `xs` of `argv`. -/
theorem do_exec_eq (xs : List String) (h2 : 2 ≤ xs.length)
    (hmax : (xs.length : Int) < INT_MAX) (ex : ExecRes) (buf : List Nat)
    (rs : List ReadRes) (ws : List Int) :
    do_exec xs.length (xs.map some ++ [none]) ex buf rs ws
      = step [.execvp (some (xs.getD 1 "")) ((xs.drop 1).map some ++ [none])]
          (match ex with
           | .replaced => ⟨[], .execed, buf, rs, ws⟩
           | .failed _ => die "execvp()" buf rs ws) := by
  obtain ⟨x0, x1, l, rfl⟩ := two_entries xs h2
  have hargs := do_exec_args_eq (x0 :: x1 :: l).length
    ((x0 :: x1 :: l).map some ++ [none]) h2 hmax (by simp)
  have hv : exec_vector (some x1 :: some x1 :: (l.map some ++ [none]))
      = some (some x1 :: (l.map some ++ [none])) := by
    have := takeWhile_isSome_map_some l []
    simp [exec_vector, List.takeWhile_cons, this]
  unfold do_exec
  rw [hargs]
  by_cases hl : l = []
  · subst hl
    have hlt : ¬ 2 < ([x0, x1] : List String).length := by simp
    rw [if_neg hlt]
    cases ex <;> simp [exec_vector, ExecRes.ret, List.takeWhile_cons]
  · have hgt : 2 < (x0 :: x1 :: l).length := by
      cases l with
      | nil => exact absurd rfl hl
      | cons y t => simp
    rw [if_pos hgt]
    simp only [List.map_cons, List.cons_append, List.getD_cons_succ, List.getD_cons_zero,
      List.drop_succ_cons, List.drop_zero, hv]
    cases ex <;> simp [ExecRes.ret]

/-- C3. For every invocation with `argc ≥ 2` (and `argc + 1` fitting an `int`)
whose `argv` holds the `argc` strings `xs` followed by `NULL`, `do_exec` calls
`execvp` exactly once, with program file `argv[1]` and with the vector
`argv[1], argv[2], ..., argv[argc-1], NULL`: its slot 0 is the executable
path, the following arguments are the caller's, unchanged and in order, and it
has `argc - 1` entries before the terminator.  After the call the process image
is replaced, or `execvp` failed and the process exits through `die`. -/
theorem do_exec_passes_arguments (xs : List String) (h2 : 2 ≤ xs.length)
    (hmax : (xs.length : Int) < INT_MAX) (ex : ExecRes) (buf : List Nat)
    (rs : List ReadRes) (ws : List Int) :
    (do_exec xs.length (xs.map some ++ [none]) ex buf rs ws).trace
      = .execvp (some (xs.getD 1 "")) ((xs.drop 1).map some ++ [none])
        :: (match ex with
            | .replaced => []
            | .failed _ => [.perror "execvp()", .exit EXIT_FAILURE]) ∧
    ((xs.drop 1).map some ++ [none])[0]? = some (some (xs.getD 1 "")) ∧
    (∀ i, 1 ≤ i → i < xs.length →
      ((xs.drop 1).map some ++ [none])[i - 1]? = (xs.map some ++ [none])[i]?) ∧
    ((xs.drop 1).map some).length = xs.length - 1 ∧
    ((xs.drop 1).map some ++ [none])[xs.length - 1]? = some none := by
  obtain ⟨x0, x1, l, rfl⟩ := two_entries xs h2
  refine ⟨?_, by simp, ?_, by simp, ?_⟩
  · rw [do_exec_eq _ h2 hmax]
    cases ex <;> simp [die]
  · intro i h1 _
    obtain ⟨j, rfl⟩ : ∃ j, i = j + 1 := ⟨i - 1, by omega⟩
    simp
  · simp

/-- C3 at `ptout ls -l /`. -/
theorem do_exec_passes_arguments_witness :
    (do_exec (["ptout", "ls", "-l", "/"] : List String).length
        ((["ptout", "ls", "-l", "/"] : List String).map some ++ [none]) .replaced [] [] []).trace
      = [.execvp (some "ls") [some "ls", some "-l", some "/", none]] :=
  (do_exec_passes_arguments ["ptout", "ls", "-l", "/"] (by decide) (by decide)
    .replaced [] [] []).1

/-! ## The calls of the relay loop -/

theorem closes_of_append (a b : List Call) :
    closes_of (a ++ b) = closes_of a ++ closes_of b := by
  induction a with
  | nil => rfl
  | cons c cs ih => cases c <;> simp [closes_of, ih]

theorem andThen_trace_closes {α β : Type} (r : Run α)
    (k : α → List Nat → List ReadRes → List Int → Run β)
    (hr : closes_of r.trace = [])
    (hk : ∀ a b rs ws, closes_of (k a b rs ws).trace = []) :
    closes_of (r.andThen k).trace = [] := by
  unfold Run.andThen
  cases h : r.out <;> simp [closes_of_append, hr, hk]

theorem print_buf_closes (sfd : Int) (rs : List ReadRes) :
    ∀ (buf : List Nat) (ws : List Int), closes_of (print_buf sfd buf rs ws).trace = [] := by
  induction rs with
  | nil => intro buf ws; simp [print_buf, closes_of]
  | cons r rs ih =>
    intro buf ws
    simp only [print_buf]
    split
    · split
      · simp [die, closes_of]
      · simp [closes_of_append, closes_of, ih]
    · split
      · simp [closes_of]
      · cases ws with
        | nil => simp [closes_of]
        | cons w ws1 => simp [closes_of_append, closes_of, ih]

theorem do_poll_events_closes (sfd : Int) (evs : List EpollEvent) :
    ∀ (buf : List Nat) (rs : List ReadRes) (ws : List Int),
      closes_of (do_poll_events sfd evs buf rs ws).trace = [] := by
  induction evs with
  | nil => intro buf rs ws; simp [do_poll_events, closes_of]
  | cons e es ih =>
    intro buf rs ws
    simp only [do_poll_events]
    split
    · exact andThen_trace_closes _ _ (print_buf_closes sfd rs buf ws) (fun _ b r w => ih b r w)
    · exact ih buf rs ws

theorem do_poll_loop_closes (efd sfd : Int) (polls : List EpollRes) :
    ∀ (buf : List Nat) (rs : List ReadRes) (ws : List Int),
      closes_of (do_poll_loop efd sfd polls buf rs ws).trace = [] := by
  induction polls with
  | nil => intro buf rs ws; simp [do_poll_loop, closes_of]
  | cons p ps ih =>
    intro buf rs ws
    cases p with
    | error e => simp [do_poll_loop, die, closes_of]
    | ready evs =>
      simp only [do_poll_loop, step_trace, closes_of_append]
      rw [andThen_trace_closes _ _ (do_poll_events_closes sfd evs buf rs ws)
        (fun _ b r w => ih b r w)]
      simp [closes_of]

/-! ## C4: which descriptor goes where -/

theorem dup2s_of_append (a b : List Call) :
    dup2s_of (a ++ b) = dup2s_of a ++ dup2s_of b := by
  induction a with
  | nil => rfl
  | cons c cs ih => cases c <;> simp [dup2s_of, ih]

/-- The trace of `main` in the child when the setup, `tcflush` and the three
`dup2` succeed. -/
theorem main_child_trace (argc : Int) (argv : List (Option String)) (env : Env)
    (h2 : ¬ argc < 2)
    (hopen : env.posix_openpt ≠ -1) (hgrant : env.grantpt = 0) (hunlock : env.unlockpt = 0)
    (hslave : env.open_slave ≠ -1) (hfork : env.fork = 0) (hflush : env.tcflush ≠ -1)
    (hd0 : env.dup2_stdin ≠ -1) (hd1 : env.dup2_stdout ≠ -1) (hd2 : env.dup2_stderr ≠ -1)
    (hex : ∀ r, (do_exec argc argv env.execvp (List.replicate BUF_SIZE 0)
      env.reads env.writes).out ≠ .ret r) :
    (main argc argv env).trace
      = [.posix_openpt, .grantpt env.posix_openpt, .unlockpt env.posix_openpt,
         .ptsname env.posix_openpt, .open_rdwr env.ptsname, .fork,
         .close env.open_slave, .tcflush env.posix_openpt,
         .dup2 env.posix_openpt STDIN_FILENO, .dup2 env.posix_openpt STDOUT_FILENO,
         .dup2 env.posix_openpt STDERR_FILENO]
        ++ (do_exec argc argv env.execvp (List.replicate BUF_SIZE 0)
              env.reads env.writes).trace ∧
    (main argc argv env).out
      = (do_exec argc argv env.execvp (List.replicate BUF_SIZE 0) env.reads env.writes).out := by
  generalize hr : do_exec argc argv env.execvp (List.replicate BUF_SIZE 0)
    env.reads env.writes = r at hex
  have hmain : main argc argv env = step [.posix_openpt, .grantpt env.posix_openpt,
      .unlockpt env.posix_openpt, .ptsname env.posix_openpt, .open_rdwr env.ptsname, .fork]
      ((step [.close env.open_slave, .tcflush env.posix_openpt,
         .dup2 env.posix_openpt STDIN_FILENO, .dup2 env.posix_openpt STDOUT_FILENO,
         .dup2 env.posix_openpt STDERR_FILENO] r).andThen
        fun _ b1 r1 w1 => main_parent env.posix_openpt env.open_slave env.fork env b1 r1 w1) := by
    simp [main, main_child, flush_pts, usage, Run.andThen, step, h2, hopen, hgrant, hunlock,
      hslave, hfork, hflush, hd0, hd1, hd2, hr]
  rw [hmain]
  cases hout : r.out with
  | ret a => exact absurd hout (hex a)
  | exited st => simp [Run.andThen, step, hout]
  | execed => simp [Run.andThen, step, hout]
  | blocked => simp [Run.andThen, step, hout]
  | undefined => simp [Run.andThen, step, hout]

theorem do_exec_never_returns (xs : List String) (h2 : 2 ≤ xs.length)
    (hmax : (xs.length : Int) < INT_MAX) (ex : ExecRes) (buf : List Nat)
    (rs : List ReadRes) (ws : List Int) (r : Int) :
    (do_exec xs.length (xs.map some ++ [none]) ex buf rs ws).out ≠ .ret r := by
  rw [do_exec_eq xs h2 hmax]
  cases ex <;> simp [die]

theorem andThen_trace_of_not_ret {α β : Type} (r : Run α)
    (k : α → List Nat → List ReadRes → List Int → Run β) (h : ∀ a, r.out ≠ .ret a) :
    (r.andThen k).trace = r.trace := by
  unfold Run.andThen
  cases hout : r.out with
  | ret a => exact absurd hout (h a)
  | exited st => rfl
  | execed => rfl
  | blocked => rfl
  | undefined => rfl

/-- The trace of `main` in the parent when the setup, the change to raw mode,
`epoll_create1` and `epoll_ctl` succeed: the calls up to the relay loop, then
the calls of the loop. -/
theorem main_parent_trace (argc : Int) (argv : List (Option String)) (env : Env)
    (h2 : ¬ argc < 2)
    (hopen : env.posix_openpt ≠ -1) (hgrant : env.grantpt = 0) (hunlock : env.unlockpt = 0)
    (hslave : env.open_slave ≠ -1) (hfork0 : env.fork ≠ 0) (hfork1 : env.fork ≠ -1)
    (hget : env.tcgetattr ≠ -1) (hset : env.tcsetattr ≠ -1)
    (hcreate : env.epoll_create1 ≠ -1) (hctl : env.epoll_ctl ≠ -1) :
    (main argc argv env).trace
      = [.posix_openpt, .grantpt env.posix_openpt, .unlockpt env.posix_openpt,
         .ptsname env.posix_openpt, .open_rdwr env.ptsname, .fork,
         .close env.posix_openpt,
         .tcgetattr env.open_slave, .cfmakeraw, .tcsetattr env.open_slave,
         .close STDERR_FILENO, .close STDIN_FILENO,
         .epoll_create1 0,
         .epoll_ctl_add env.epoll_create1 env.open_slave ⟨EPOLLIN, env.open_slave⟩]
        ++ (do_poll_loop env.epoll_create1 env.open_slave env.polls
              (List.replicate BUF_SIZE 0) env.reads env.writes).trace := by
  have hloop := do_poll_loop_never_returns env.epoll_create1 env.open_slave env.polls
    (List.replicate BUF_SIZE 0) env.reads env.writes
  have hmain : main argc argv env = step [.posix_openpt, .grantpt env.posix_openpt,
      .unlockpt env.posix_openpt, .ptsname env.posix_openpt, .open_rdwr env.ptsname, .fork,
      .close env.posix_openpt,
      .tcgetattr env.open_slave, .cfmakeraw, .tcsetattr env.open_slave,
      .close STDERR_FILENO, .close STDIN_FILENO]
      ((step [.epoll_create1 0,
          .epoll_ctl_add env.epoll_create1 env.open_slave ⟨EPOLLIN, env.open_slave⟩]
          (do_poll_loop env.epoll_create1 env.open_slave env.polls
            (List.replicate BUF_SIZE 0) env.reads env.writes)).andThen
        fun _ b r w => main_reap env.fork env b r w) := by
    simp [main, main_parent, set_raw_mode, do_poll, Run.andThen, step, h2, hopen, hgrant,
      hunlock, hslave, hfork0, hfork1, hget, hset, hcreate, hctl]
  rw [hmain, step_trace, andThen_trace_of_not_ret _ _ (fun a => by simpa using hloop)]
  simp

/-- C4 as the code has it.  With `m` the descriptor `posix_openpt` returns (the
master) and `s` the descriptor obtained by opening the path `ptsname` names
(the slave), after a successful setup: in the child the only descriptor closed
is `s`, `tcflush` is applied to `m`, and `m` is the source of the three `dup2`
calls, onto 0, 1 and 2; in the parent the descriptors closed are `m`, 2 and 0,
so `s` is the pty descriptor kept, raw mode is set on `s`, and `s` is the
descriptor registered with epoll and handed to the relay loop. -/
theorem main_descriptor_roles (xs : List String) (h2 : 2 ≤ xs.length)
    (hmax : (xs.length : Int) < INT_MAX) (env : Env)
    (hopen : env.posix_openpt ≠ -1) (hgrant : env.grantpt = 0) (hunlock : env.unlockpt = 0)
    (hslave : env.open_slave ≠ -1) :
    (env.fork = 0 → env.tcflush ≠ -1 → env.dup2_stdin ≠ -1 → env.dup2_stdout ≠ -1 →
      env.dup2_stderr ≠ -1 →
      closes_of (main xs.length (xs.map some ++ [none]) env).trace = [env.open_slave] ∧
      dup2s_of (main xs.length (xs.map some ++ [none]) env).trace
        = [(env.posix_openpt, STDIN_FILENO), (env.posix_openpt, STDOUT_FILENO),
           (env.posix_openpt, STDERR_FILENO)] ∧
      Call.tcflush env.posix_openpt ∈ (main xs.length (xs.map some ++ [none]) env).trace) ∧
    (env.fork ≠ 0 → env.fork ≠ -1 → env.tcgetattr ≠ -1 → env.tcsetattr ≠ -1 →
      env.epoll_create1 ≠ -1 → env.epoll_ctl ≠ -1 →
      closes_of (main xs.length (xs.map some ++ [none]) env).trace
        = [env.posix_openpt, STDERR_FILENO, STDIN_FILENO] ∧
      (main xs.length (xs.map some ++ [none]) env).trace
        = [.posix_openpt, .grantpt env.posix_openpt, .unlockpt env.posix_openpt,
           .ptsname env.posix_openpt, .open_rdwr env.ptsname, .fork,
           .close env.posix_openpt,
           .tcgetattr env.open_slave, .cfmakeraw, .tcsetattr env.open_slave,
           .close STDERR_FILENO, .close STDIN_FILENO,
           .epoll_create1 0,
           .epoll_ctl_add env.epoll_create1 env.open_slave ⟨EPOLLIN, env.open_slave⟩]
          ++ (do_poll_loop env.epoll_create1 env.open_slave env.polls
                (List.replicate BUF_SIZE 0) env.reads env.writes).trace) := by
  have hargc : ¬ ((xs.length : Nat) : Int) < 2 := by omega
  constructor
  · intro hfork hflush hd0 hd1 hd2
    have h := (main_child_trace xs.length (xs.map some ++ [none]) env hargc hopen hgrant
      hunlock hslave hfork hflush hd0 hd1 hd2
      (fun r => do_exec_never_returns xs h2 hmax env.execvp _ _ _ r)).1
    rw [h, do_exec_eq xs h2 hmax]
    cases env.execvp <;> simp [closes_of, dup2s_of, die]
  · intro hfork0 hfork1 hget hset hcreate hctl
    have h := main_parent_trace xs.length (xs.map some ++ [none]) env hargc hopen hgrant
      hunlock hslave hfork0 hfork1 hget hset hcreate hctl
    refine ⟨?_, h⟩
    rw [h, closes_of_append, do_poll_loop_closes]
    simp [closes_of]

/-- C4 (amended) at `ptout true` in the child with master 3 and slave 4. -/
theorem main_descriptor_roles_witness :
    closes_of (main (["ptout", "true"] : List String).length
        ((["ptout", "true"] : List String).map some ++ [none]) env_child).trace
      = [env_child.open_slave] :=
  ((main_descriptor_roles ["ptout", "true"] (by decide) (by decide) env_child
    (by decide) rfl rfl (by decide)).1 rfl (by decide) (by decide) (by decide)
    (by decide)).1

/-- C4 as stated fails.  With master 3 and slave 4, the child closes 4, the
slave, not the master, and duplicates 3, the master, onto 0, 1 and 2; the
parent closes 3, the master, not the slave, and registers 4, the slave, with
epoll and reads from it. -/
theorem main_descriptor_roles_counterexample :
    env_child.posix_openpt = 3 ∧ env_child.open_slave = 4 ∧ env_child.fork = 0 ∧
    (main 2 [some "ptout", some "true", none] env_child).trace
      = [.posix_openpt, .grantpt 3, .unlockpt 3, .ptsname 3,
         .open_rdwr (some "/dev/pts/7"), .fork,
         .close 4, .tcflush 3, .dup2 3 0, .dup2 3 1, .dup2 3 2,
         .execvp (some "true") [some "true", none]] ∧
    closes_of (main 2 [some "ptout", some "true", none] env_child).trace = [4] ∧
    dup2s_of (main 2 [some "ptout", some "true", none] env_child).trace
      = [(3, 0), (3, 1), (3, 2)] ∧
    env_eof.posix_openpt = 3 ∧ env_eof.open_slave = 4 ∧ env_eof.fork = 77 ∧
    closes_of (main 2 [some "ptout", some "true", none] env_eof).trace = [3, 2, 0] ∧
    (main 2 [some "ptout", some "true", none] env_eof).trace.take 16
      = [.posix_openpt, .grantpt 3, .unlockpt 3, .ptsname 3,
         .open_rdwr (some "/dev/pts/7"), .fork, .close 3,
         .tcgetattr 4, .cfmakeraw, .tcsetattr 4, .close 2, .close 0,
         .epoll_create1 0, .epoll_ctl_add 5 4 ⟨1, 4⟩,
         .epoll_wait 5 10, .read 4 4096] := by
  refine ⟨rfl, rfl, rfl, rfl, rfl, rfl, rfl, rfl, rfl, rfl, rfl⟩

/-! ## C8: the child never runs the parent's code -/

/-- C8. In the child (`fork` returned 0 after a successful setup), for every
result of `tcflush`, of the three `dup2` and of `execvp`: `main` does not
return and ends either with the process image replaced or with exit status
EXIT_FAILURE; none of the calls of the parent's code is issued (no raw-mode
call, no epoll call, no read, no write, no `waitpid`), and the only descriptor
closed is the one closed in the child block.  When `execvp` fails the child
exits with EXIT_FAILURE, which is not zero, right after `perror("execvp()")`:
`do_exec` does not return to `main`. -/
theorem child_never_reaches_parent_code (xs : List String) (h2 : 2 ≤ xs.length)
    (hmax : (xs.length : Int) < INT_MAX) (env : Env)
    (hopen : env.posix_openpt ≠ -1) (hgrant : env.grantpt = 0) (hunlock : env.unlockpt = 0)
    (hslave : env.open_slave ≠ -1) (hfork : env.fork = 0) :
    (∀ v, (main xs.length (xs.map some ++ [none]) env).out ≠ .ret v) ∧
    ((main xs.length (xs.map some ++ [none]) env).out = .execed ∨
      (main xs.length (xs.map some ++ [none]) env).out = .exited EXIT_FAILURE) ∧
    (∀ c ∈ (main xs.length (xs.map some ++ [none]) env).trace, parent_call c = false) ∧
    closes_of (main xs.length (xs.map some ++ [none]) env).trace = [env.open_slave] ∧
    (∀ errno, env.execvp = .failed errno → env.tcflush ≠ -1 → env.dup2_stdin ≠ -1 →
      env.dup2_stdout ≠ -1 → env.dup2_stderr ≠ -1 →
      (main xs.length (xs.map some ++ [none]) env).out = .exited EXIT_FAILURE ∧
      EXIT_FAILURE ≠ 0 ∧
      (main xs.length (xs.map some ++ [none]) env).trace
        = [.posix_openpt, .grantpt env.posix_openpt, .unlockpt env.posix_openpt,
           .ptsname env.posix_openpt, .open_rdwr env.ptsname, .fork,
           .close env.open_slave, .tcflush env.posix_openpt,
           .dup2 env.posix_openpt STDIN_FILENO, .dup2 env.posix_openpt STDOUT_FILENO,
           .dup2 env.posix_openpt STDERR_FILENO,
           .execvp (some (xs.getD 1 "")) ((xs.drop 1).map some ++ [none]),
           .perror "execvp()", .exit EXIT_FAILURE]) := by
  have hargc : ¬ ((xs.length : Nat) : Int) < 2 := by omega
  by_cases hflush : env.tcflush = -1
  · have hm : main xs.length (xs.map some ++ [none]) env
        = ⟨[.posix_openpt, .grantpt env.posix_openpt, .unlockpt env.posix_openpt,
            .ptsname env.posix_openpt, .open_rdwr env.ptsname, .fork,
            .close env.open_slave, .tcflush env.posix_openpt,
            .perror "tcflush()", .exit EXIT_FAILURE], .exited EXIT_FAILURE,
            List.replicate BUF_SIZE 0, env.reads, env.writes⟩ := by
      simp [main, main_child, flush_pts, usage, Run.andThen, step, die, hargc, hopen, hgrant,
        hunlock, hslave, hfork, hflush]
    rw [hm]
    simp [parent_call, closes_of, hflush]
  by_cases hd0 : env.dup2_stdin = -1
  · have hm : main xs.length (xs.map some ++ [none]) env
        = ⟨[.posix_openpt, .grantpt env.posix_openpt, .unlockpt env.posix_openpt,
            .ptsname env.posix_openpt, .open_rdwr env.ptsname, .fork,
            .close env.open_slave, .tcflush env.posix_openpt,
            .dup2 env.posix_openpt STDIN_FILENO,
            .perror "dup2()", .exit EXIT_FAILURE], .exited EXIT_FAILURE,
            List.replicate BUF_SIZE 0, env.reads, env.writes⟩ := by
      simp [main, main_child, flush_pts, usage, Run.andThen, step, die, hargc, hopen, hgrant,
        hunlock, hslave, hfork, hflush, hd0]
    rw [hm]
    simp [parent_call, closes_of, hd0]
  by_cases hd1 : env.dup2_stdout = -1
  · have hm : main xs.length (xs.map some ++ [none]) env
        = ⟨[.posix_openpt, .grantpt env.posix_openpt, .unlockpt env.posix_openpt,
            .ptsname env.posix_openpt, .open_rdwr env.ptsname, .fork,
            .close env.open_slave, .tcflush env.posix_openpt,
            .dup2 env.posix_openpt STDIN_FILENO, .dup2 env.posix_openpt STDOUT_FILENO,
            .perror "dup2()", .exit EXIT_FAILURE], .exited EXIT_FAILURE,
            List.replicate BUF_SIZE 0, env.reads, env.writes⟩ := by
      simp [main, main_child, flush_pts, usage, Run.andThen, step, die, hargc, hopen, hgrant,
        hunlock, hslave, hfork, hflush, hd0, hd1]
    rw [hm]
    simp [parent_call, closes_of, hd1]
  by_cases hd2 : env.dup2_stderr = -1
  · have hm : main xs.length (xs.map some ++ [none]) env
        = ⟨[.posix_openpt, .grantpt env.posix_openpt, .unlockpt env.posix_openpt,
            .ptsname env.posix_openpt, .open_rdwr env.ptsname, .fork,
            .close env.open_slave, .tcflush env.posix_openpt,
            .dup2 env.posix_openpt STDIN_FILENO, .dup2 env.posix_openpt STDOUT_FILENO,
            .dup2 env.posix_openpt STDERR_FILENO,
            .perror "dup2()", .exit EXIT_FAILURE], .exited EXIT_FAILURE,
            List.replicate BUF_SIZE 0, env.reads, env.writes⟩ := by
      simp [main, main_child, flush_pts, usage, Run.andThen, step, die, hargc, hopen, hgrant,
        hunlock, hslave, hfork, hflush, hd0, hd1, hd2]
    rw [hm]
    simp [parent_call, closes_of, hd2]
  obtain ⟨ht, ho⟩ := main_child_trace xs.length (xs.map some ++ [none]) env hargc hopen
    hgrant hunlock hslave hfork hflush hd0 hd1 hd2
    (fun r => do_exec_never_returns xs h2 hmax env.execvp _ _ _ r)
  rw [ht, ho, do_exec_eq xs h2 hmax]
  cases hex : env.execvp <;> simp [parent_call, closes_of, die, EXIT_FAILURE]

/-- C8 at `ptout nonexistent-program-xyz`: `execvp` fails with ENOENT (2). -/
theorem child_never_reaches_parent_code_witness :
    (main (["ptout", "nonexistent-program-xyz"] : List String).length
        ((["ptout", "nonexistent-program-xyz"] : List String).map some ++ [none])
        { env_child with execvp := .failed 2 }).out = .exited EXIT_FAILURE :=
  ((child_never_reaches_parent_code ["ptout", "nonexistent-program-xyz"] (by decide)
    (by decide) { env_child with execvp := .failed 2 } (by decide) rfl rfl (by decide)
    rfl).2.2.2.2 2 rfl (by decide) (by decide) (by decide) (by decide)).1

/-! ## C9: setup failures -/

/-- C9. For every invocation with `argc ≥ 2`, each setup step of `main`, taken
in order, is fatal when it fails after the steps before it succeeded:
`posix_openpt`, `grantpt`, `unlockpt`, the `open` of the slave path, `fork`,
and in the parent `tcgetattr` and `tcsetattr` of `set_raw_mode`.  The trace
then ends with `perror` naming the step and `exit(EXIT_FAILURE)`, the status
is not zero, and no later step is in the trace: no `fork` after a failed pty
allocation, no epoll call and no read after a failed `fork` or a failed change
to raw mode. -/
theorem setup_failures_are_fatal (argc : Int) (argv : List (Option String)) (env : Env)
    (h2 : 2 ≤ argc) :
    EXIT_FAILURE ≠ 0 ∧
    (env.posix_openpt = -1 →
      (main argc argv env).trace
        = [.posix_openpt, .perror "posix_openpt()", .exit EXIT_FAILURE] ∧
      (main argc argv env).out = .exited EXIT_FAILURE) ∧
    (env.posix_openpt ≠ -1 → env.grantpt ≠ 0 →
      (main argc argv env).trace
        = [.posix_openpt, .grantpt env.posix_openpt,
           .perror "grantpt()", .exit EXIT_FAILURE] ∧
      (main argc argv env).out = .exited EXIT_FAILURE) ∧
    (env.posix_openpt ≠ -1 → env.grantpt = 0 → env.unlockpt ≠ 0 →
      (main argc argv env).trace
        = [.posix_openpt, .grantpt env.posix_openpt, .unlockpt env.posix_openpt,
           .perror "unlockpt()", .exit EXIT_FAILURE] ∧
      (main argc argv env).out = .exited EXIT_FAILURE) ∧
    (env.posix_openpt ≠ -1 → env.grantpt = 0 → env.unlockpt = 0 → env.open_slave = -1 →
      (main argc argv env).trace
        = [.posix_openpt, .grantpt env.posix_openpt, .unlockpt env.posix_openpt,
           .ptsname env.posix_openpt, .open_rdwr env.ptsname,
           .perror "open()", .exit EXIT_FAILURE] ∧
      (main argc argv env).out = .exited EXIT_FAILURE) ∧
    (env.posix_openpt ≠ -1 → env.grantpt = 0 → env.unlockpt = 0 → env.open_slave ≠ -1 →
      env.fork = -1 →
      (main argc argv env).trace
        = [.posix_openpt, .grantpt env.posix_openpt, .unlockpt env.posix_openpt,
           .ptsname env.posix_openpt, .open_rdwr env.ptsname, .fork,
           .perror "fork()", .exit EXIT_FAILURE] ∧
      (main argc argv env).out = .exited EXIT_FAILURE) ∧
    (env.posix_openpt ≠ -1 → env.grantpt = 0 → env.unlockpt = 0 → env.open_slave ≠ -1 →
      env.fork ≠ -1 → env.fork ≠ 0 → env.tcgetattr = -1 →
      (main argc argv env).trace
        = [.posix_openpt, .grantpt env.posix_openpt, .unlockpt env.posix_openpt,
           .ptsname env.posix_openpt, .open_rdwr env.ptsname, .fork,
           .close env.posix_openpt, .tcgetattr env.open_slave,
           .perror "tcgetattr()", .exit EXIT_FAILURE] ∧
      (main argc argv env).out = .exited EXIT_FAILURE) ∧
    (env.posix_openpt ≠ -1 → env.grantpt = 0 → env.unlockpt = 0 → env.open_slave ≠ -1 →
      env.fork ≠ -1 → env.fork ≠ 0 → env.tcgetattr ≠ -1 → env.tcsetattr = -1 →
      (main argc argv env).trace
        = [.posix_openpt, .grantpt env.posix_openpt, .unlockpt env.posix_openpt,
           .ptsname env.posix_openpt, .open_rdwr env.ptsname, .fork,
           .close env.posix_openpt, .tcgetattr env.open_slave, .cfmakeraw,
           .tcsetattr env.open_slave,
           .perror "tcsetattr()", .exit EXIT_FAILURE] ∧
      (main argc argv env).out = .exited EXIT_FAILURE) := by
  have hargc : ¬ argc < 2 := by omega
  refine ⟨by decide, ?_, ?_, ?_, ?_, ?_, ?_, ?_⟩
  · intro h1
    simp [main, usage, Run.andThen, step, die, hargc, h1]
  · intro h1 h2
    simp [main, usage, Run.andThen, step, die, hargc, h1, h2]
  · intro h1 h2 h3
    simp [main, usage, Run.andThen, step, die, hargc, h1, h2, h3]
  · intro h1 h2 h3 h4
    simp [main, usage, Run.andThen, step, die, hargc, h1, h2, h3, h4]
  · intro h1 h2 h3 h4 h5
    simp [main, usage, Run.andThen, step, die, hargc, h1, h2, h3, h4, h5]
  · intro h1 h2 h3 h4 h5 h6 h7
    simp [main, main_parent, set_raw_mode, usage, Run.andThen, step, die, hargc, h1, h2, h3,
      h4, h5, h6, h7]
  · intro h1 h2 h3 h4 h5 h6 h7 h8
    simp [main, main_parent, set_raw_mode, usage, Run.andThen, step, die, hargc, h1, h2, h3,
      h4, h5, h6, h7, h8]

/-- C9 at a failed `fork`. -/
theorem setup_failures_are_fatal_witness :
    (2 : Int) ≤ 2 ∧
    (main 2 [some "ptout", some "true", none] { env_child with fork := -1 }).trace
      = [.posix_openpt, .grantpt 3, .unlockpt 3, .ptsname 3,
         .open_rdwr (some "/dev/pts/7"), .fork, .perror "fork()", .exit EXIT_FAILURE] :=
  ⟨by decide, ((setup_failures_are_fatal 2 [some "ptout", some "true", none]
    { env_child with fork := -1 } (by decide)).2.2.2.2.2.1
      (by decide) rfl rfl (by decide) rfl).1⟩

/-! ## C5: the exit status -/

end Ptout
